import Mathlib

/-
Verification of the dailybible-rs user-state store, schedule lookup and
scheduler loop, as a shallow embedding of the Rust sources
(src/userstate.rs, src/biblereading.rs, src/main.rs, src/localize.rs).

Machine integers: the Telegram ChatId is a newtype over i64; the claims
settled here never exercise i64 overflow, so chat ids are embedded as Int.
Times (chrono NaiveTime) are embedded as hour/minute/second naturals; the
chrono constructors guarantee hour < 24, minute < 60, second < 60, which
appears as a hypothesis where a theorem needs it.
-/

set_option autoImplicit false

namespace DailyBible

/-! ## Data model (userstate.rs, localize.rs) -/

/-- The Language enum of localize.rs: all supported languages of the bot. -/
inductive Language where
  | English
  | German
deriving DecidableEq

/-- Embedding of chrono NaiveTime, at second granularity (the program never
stores sub-second values: timers come from parsing "%H:%M", which yields
second = 0, or from the persisted file, whose times are written "HH:MM:SS"). -/
structure NaiveTime where
  hour : Nat
  minute : Nat
  second : Nat
deriving DecidableEq

/-- The UserState struct of userstate.rs: one record per chat. -/
structure UserState where
  chat_id : Int
  language : Language
  timer : Option NaiveTime
deriving DecidableEq

/-- The in-memory collection guarded by the RwLock in UserStateWrapper:
a Vec of UserState, embedded as a list. -/
abbrev UserStateStore := List UserState

/-! ## Store operations (userstate.rs) -/

/-- UserStateWrapper.user_state_exists: scans the collection under a read
lock and reports whether a record with the given chat id is present. -/
def user_state_exists (chat_id : Int) : UserStateStore → Bool
  | [] => false
  | u :: rest => if u.chat_id = chat_id then true else user_state_exists chat_id rest

/-- The default UserState built inside find_userstate for an unknown chat. -/
def defaultUserState (chat_id : Int) : UserState :=
  { chat_id := chat_id, language := Language.English, timer := none }

/-- The scan loop inside UserStateWrapper.find_userstate: first record with
the given chat id, or the default record when none is found. -/
def findLoop (chat_id : Int) : UserStateStore → UserState
  | [] => defaultUserState chat_id
  | u :: rest => if u.chat_id = chat_id then u else findLoop chat_id rest

/-- UserStateWrapper.find_userstate. The method takes a read lock only and
clones the record, so the collection after the call is the collection
before it; the pair returned here is (result, collection after the call). -/
def find_userstate (chat_id : Int) (store : UserStateStore) : UserState × UserStateStore :=
  (findLoop chat_id store, store)

/-- UserStateWrapper.update_userstate: scans the collection, overwrites the
first record carrying the same chat id and returns true; when no record
matches, pushes the new record at the end and returns false. The pair is
(returned bool, collection after the call). -/
def update_userstate (user_state : UserState) : UserStateStore → Bool × UserStateStore
  | [] => (false, [user_state])
  | u :: rest =>
    if u.chat_id = user_state.chat_id then (true, user_state :: rest)
    else
      let r := update_userstate user_state rest
      (r.1, u :: r.2)

/-- Number of records in the collection carrying the given chat id. -/
def countKey (chat_id : Int) (store : UserStateStore) : Nat :=
  store.countP (fun u => u.chat_id == chat_id)

/-- The per-chat-id uniqueness invariant of the spec: at most one UserState
per chat id, stated as pairwise distinctness of the chat id keys. -/
def KeyNodup (store : UserStateStore) : Prop :=
  store.Pairwise (fun a b => a.chat_id ≠ b.chat_id)

/-- A store built by a sequence of update_userstate calls starting from a
given collection (the store is created empty at process start). -/
def applyUpserts (ops : List UserState) (store : UserStateStore) : UserStateStore :=
  ops.foldl (fun st u => (update_userstate u st).2) store

/-! ## Basic lemmas about the store operations -/

theorem update_userstate_of_not_mem (s : UserState) (store : UserStateStore)
    (h : ∀ u ∈ store, u.chat_id ≠ s.chat_id) :
    update_userstate s store = (false, store ++ [s]) := by
  induction store with
  | nil => rfl
  | cons u rest ih =>
    have hu : u.chat_id ≠ s.chat_id := h u (List.mem_cons_self u rest)
    have hrest : ∀ v ∈ rest, v.chat_id ≠ s.chat_id := fun v hv => h v (List.mem_cons_of_mem u hv)
    simp [update_userstate, hu, ih hrest]

theorem update_userstate_fst_eq_exists (s : UserState) (store : UserStateStore) :
    (update_userstate s store).1 = true ↔ ∃ u ∈ store, u.chat_id = s.chat_id := by
  induction store with
  | nil => simp [update_userstate]
  | cons u rest ih =>
    by_cases hu : u.chat_id = s.chat_id
    · simp [update_userstate, hu]
    · simp only [update_userstate, if_neg hu]
      simp only [List.mem_cons]
      constructor
      · intro h
        obtain ⟨v, hv, hkey⟩ := ih.mp h
        exact ⟨v, Or.inr hv, hkey⟩
      · rintro ⟨v, hv | hv, hkey⟩
        · exact absurd (hv ▸ hkey) hu
        · exact ih.mpr ⟨v, hv, hkey⟩

/-- Membership in an updated store: every record is the argument or was
already present. -/
theorem mem_update_userstate (s v : UserState) (store : UserStateStore)
    (hv : v ∈ (update_userstate s store).2) : v = s ∨ v ∈ store := by
  induction store with
  | nil => simpa [update_userstate] using hv
  | cons u rest ih =>
    by_cases hu : u.chat_id = s.chat_id
    · simp only [update_userstate, if_pos hu] at hv
      rcases List.mem_cons.mp hv with h | h
      · exact Or.inl h
      · exact Or.inr (List.mem_cons_of_mem u h)
    · simp only [update_userstate, if_neg hu] at hv
      rcases List.mem_cons.mp hv with h | h
      · exact Or.inr (h ▸ List.mem_cons_self u rest)
      · rcases ih h with h2 | h2
        · exact Or.inl h2
        · exact Or.inr (List.mem_cons_of_mem u h2)

/-- update_userstate preserves the per-chat-id uniqueness invariant. -/
theorem keyNodup_update_userstate (s : UserState) (store : UserStateStore)
    (h : KeyNodup store) : KeyNodup (update_userstate s store).2 := by
  induction store with
  | nil => simp [update_userstate, KeyNodup]
  | cons u rest ih =>
    have hpair := (List.pairwise_cons.mp h)
    by_cases hu : u.chat_id = s.chat_id
    · simp only [update_userstate, if_pos hu, KeyNodup]
      refine List.pairwise_cons.mpr ⟨?_, hpair.2⟩
      intro v hv
      exact hu ▸ hpair.1 v hv
    · simp only [update_userstate, if_neg hu, KeyNodup]
      refine List.pairwise_cons.mpr ⟨?_, ih hpair.2⟩
      intro v hv
      rcases mem_update_userstate s v rest hv with h2 | h2
      · exact h2 ▸ hu
      · exact hpair.1 v h2

theorem countKey_append (c : Int) (l1 l2 : UserStateStore) :
    countKey c (l1 ++ l2) = countKey c l1 + countKey c l2 := by
  simp [countKey, List.countP_append]

theorem countKey_eq_zero_of_not_mem (c : Int) (store : UserStateStore)
    (h : ∀ u ∈ store, u.chat_id ≠ c) : countKey c store = 0 := by
  simp only [countKey, List.countP_eq_zero]
  intro u hu
  simpa using h u hu

/-- Updating an existing record keeps the number of records per chat id of
the updated key unchanged. -/
theorem countKey_update_of_mem (s : UserState) (store : UserStateStore)
    (h : ∃ u ∈ store, u.chat_id = s.chat_id) :
    countKey s.chat_id (update_userstate s store).2 = countKey s.chat_id store := by
  induction store with
  | nil => simp at h
  | cons u rest ih =>
    by_cases hu : u.chat_id = s.chat_id
    · simp [update_userstate, if_pos hu, countKey, List.countP_cons, hu]
    · have hrest : ∃ v ∈ rest, v.chat_id = s.chat_id := by
        rcases h with ⟨v, hv, hkey⟩
        rcases List.mem_cons.mp hv with h2 | h2
        · exact absurd (h2 ▸ hkey) hu
        · exact ⟨v, h2, hkey⟩
      have := ih hrest
      simp only [update_userstate, if_neg hu]
      simp [countKey, List.countP_cons] at this ⊢
      omega

/-! ## Persistence (userstate.rs write_states_to_file / load_states_from_file)

write_states_to_file serializes the collection with serde_json and writes
the string to the file; load_states_from_file reads the file and
deserializes. The file is modelled at the JSON value level: the derived
serde Serialize/Deserialize for Vec of UserState (determined by the type
definitions of this repository) is embedded below, while the pure text
codec of serde_json (Value to string and back) and tokio file IO are the
external collaborators. A file read that fails, or a document the derived
Deserialize rejects, is the error path of the respective match in the
source. -/

/-- JSON values, the shape serde_json works with (numbers restricted to
integers: the persisted document only ever contains chat ids). -/
inductive Json where
  | null
  | num (n : Int)
  | str (s : String)
  | arr (xs : List Json)
  | obj (fields : List (String × Json))

/-- The character for a single decimal digit, as chrono prints it. -/
def digitChar (n : Nat) : Char := Char.ofNat (48 + n)

/-- Numeric value of a decimal digit character. -/
def digitVal (c : Char) : Option Nat :=
  if 48 ≤ c.toNat ∧ c.toNat ≤ 57 then some (c.toNat - 48) else none

/-- The characters of the chrono Display form of a NaiveTime, HH:MM:SS,
each field zero-padded to two digits. -/
def timeChars (t : NaiveTime) : List Char :=
  [digitChar (t.hour / 10), digitChar (t.hour % 10), ':',
   digitChar (t.minute / 10), digitChar (t.minute % 10), ':',
   digitChar (t.second / 10), digitChar (t.second % 10)]

/-- The chrono Display form of a NaiveTime (what the derived serde
Serialize writes for a time value). -/
def timeToString (t : NaiveTime) : String := String.mk (timeChars t)

/-- Parsing the HH:MM:SS form back, as chrono Deserialize for NaiveTime
does on the documents this program writes (fractional seconds never occur
in them). -/
def parseTimeString (s : String) : Option NaiveTime :=
  match s.data with
  | [c1, c2, ':', c3, c4, ':', c5, c6] =>
    match digitVal c1, digitVal c2, digitVal c3, digitVal c4, digitVal c5, digitVal c6 with
    | some a, some b, some c, some d, some e, some f =>
      let hv := 10 * a + b
      let mv := 10 * c + d
      let sv := 10 * e + f
      if hv < 24 ∧ mv < 60 ∧ sv < 60 then
        some { hour := hv, minute := mv, second := sv }
      else none
    | _, _, _, _, _, _ => none
  | _ => none

/-- Derived serde serialization of the Language enum: a unit enum variant
serializes as its name string. -/
def languageToJson : Language → Json
  | Language.English => Json.str "English"
  | Language.German => Json.str "German"

def languageFromJson : Json → Option Language
  | Json.str "English" => some Language.English
  | Json.str "German" => some Language.German
  | _ => none

/-- Derived serde serialization of the optional timer field: None is null,
Some t is the chrono string form. -/
def timerToJson : Option NaiveTime → Json
  | none => Json.null
  | some t => Json.str (timeToString t)

def timerFromJson : Json → Option (Option NaiveTime)
  | Json.null => some none
  | Json.str s => (parseTimeString s).map some
  | _ => none

/-- Derived serde serialization of a UserState record (ChatId is a
transparent newtype over i64, so chat_id serializes as a plain integer). -/
def userStateToJson (u : UserState) : Json :=
  Json.obj [("chat_id", Json.num u.chat_id),
            ("language", languageToJson u.language),
            ("timer", timerToJson u.timer)]

/-- Derived serde deserialization of a UserState record, on the document
shape the serializer produces. -/
def userStateFromJson : Json → Option UserState
  | Json.obj [("chat_id", Json.num i), ("language", lj), ("timer", tj)] =>
    match languageFromJson lj, timerFromJson tj with
    | some lang, some tm => some { chat_id := i, language := lang, timer := tm }
    | _, _ => none
  | _ => none

def userStateListFromJson : List Json → Option (List UserState)
  | [] => some []
  | j :: rest =>
    match userStateFromJson j, userStateListFromJson rest with
    | some u, some l => some (u :: l)
    | _, _ => none

/-- Derived serde serialization of the whole Vec of UserState. -/
def userStatesToJson (store : UserStateStore) : Json :=
  Json.arr (store.map userStateToJson)

/-- Derived serde deserialization of the whole Vec of UserState. -/
def userStatesFromJson : Json → Option (List UserState)
  | Json.arr xs => userStateListFromJson xs
  | _ => none

/-- UserStateWrapper.write_states_to_file: the document written on the
success path is the serde serialization of the current collection (the
file write itself is external IO and orthogonal to the claims here). -/
def write_states_to_file (store : UserStateStore) : Json :=
  userStatesToJson store

inductive LoadError where
  | ioError
  | parseError
deriving DecidableEq

/-- UserStateWrapper.load_states_from_file. The argument models the
outcome of tokio read_to_string: none when the read fails (missing or
unreadable file), some doc for the document read. A failed read or a
document serde rejects returns the error with the collection untouched;
on success the collection is cleared and the deserialized records are
appended. The pair is (returned result, collection after the call). -/
def load_states_from_file (file : Option Json) (store : UserStateStore) :
    Except LoadError Unit × UserStateStore :=
  match file with
  | none => (Except.error LoadError.ioError, store)
  | some doc =>
    match userStatesFromJson doc with
    | none => (Except.error LoadError.parseError, store)
    | some userstates => (Except.ok (), userstates)

/-! ## Round-trip lemmas for the persistence codec -/

theorem digitVal_digitChar (n : Nat) (h : n < 10) : digitVal (digitChar n) = some n := by
  interval_cases n <;> decide

theorem parseTimeString_timeToString (t : NaiveTime)
    (hh : t.hour < 24) (hm : t.minute < 60) (hs : t.second < 60) :
    parseTimeString (timeToString t) = some t := by
  have h1 : t.hour / 10 < 10 := by omega
  have h2 : t.minute / 10 < 10 := by omega
  have h3 : t.second / 10 < 10 := by omega
  have h4 : t.hour % 10 < 10 := Nat.mod_lt _ (by omega)
  have h5 : t.minute % 10 < 10 := Nat.mod_lt _ (by omega)
  have h6 : t.second % 10 < 10 := Nat.mod_lt _ (by omega)
  simp only [parseTimeString, timeToString, timeChars,
    digitVal_digitChar _ h1, digitVal_digitChar _ h2, digitVal_digitChar _ h3,
    digitVal_digitChar _ h4, digitVal_digitChar _ h5, digitVal_digitChar _ h6]
  have e1 : 10 * (t.hour / 10) + t.hour % 10 = t.hour := by omega
  have e2 : 10 * (t.minute / 10) + t.minute % 10 = t.minute := by omega
  have e3 : 10 * (t.second / 10) + t.second % 10 = t.second := by omega
  rw [e1, e2, e3]
  rw [if_pos ⟨hh, hm, hs⟩]

theorem languageFromJson_languageToJson (l : Language) :
    languageFromJson (languageToJson l) = some l := by
  cases l <;> rfl

/-- A timer all of whose fields satisfy the chrono bounds. -/
def TimerWF : Option NaiveTime → Prop
  | none => True
  | some t => t.hour < 24 ∧ t.minute < 60 ∧ t.second < 60

theorem timerFromJson_timerToJson (tm : Option NaiveTime) (h : TimerWF tm) :
    timerFromJson (timerToJson tm) = some tm := by
  cases tm with
  | none => rfl
  | some t =>
    obtain ⟨hh, hm, hs⟩ := h
    simp [timerToJson, timerFromJson, parseTimeString_timeToString t hh hm hs]

theorem userStateFromJson_userStateToJson (u : UserState) (h : TimerWF u.timer) :
    userStateFromJson (userStateToJson u) = some u := by
  simp [userStateToJson, userStateFromJson,
    languageFromJson_languageToJson, timerFromJson_timerToJson u.timer h]

theorem userStatesFromJson_userStatesToJson (store : UserStateStore)
    (h : ∀ u ∈ store, TimerWF u.timer) :
    userStatesFromJson (userStatesToJson store) = some store := by
  induction store with
  | nil => rfl
  | cons u rest ih =>
    have hu := h u (List.mem_cons_self u rest)
    have hrest : ∀ v ∈ rest, TimerWF v.timer := fun v hv => h v (List.mem_cons_of_mem u hv)
    have ihr := ih hrest
    simp only [userStatesFromJson, userStatesToJson, List.map_cons] at ihr ⊢
    simp [userStateListFromJson, userStateFromJson_userStateToJson u hu, ihr]

/-! ## Schedule lookup (biblereading.rs)

get_biblereading_for_date reads input/schedule.csv through csv::Reader
with the default configuration: has_headers is true (the first line is
consumed as the header and never yielded as a record) and flexible is
false (a record whose field count differs from the first record read,
the header, is yielded as an Err value; the iteration then continues with
the next record). The CSV contents are embedded as the list of its lines,
each already split into fields; the record stream the csv crate delivers
to the for loop is csvRecords below. -/

/-- The error causes of biblereading.rs. -/
inductive ErrorCause where
  | inputFileNotFound
  | dateDoesNotExist
  | invalidFormat
deriving DecidableEq

/-- The BibleReading struct; the date is (month, day), the year being
fixed to 2000 by the source. -/
structure BibleReading where
  date : Nat × Nat
  old_testament_reading : String
  new_testament_reading : String
deriving DecidableEq

/-- Greedy parse of one or two leading decimal digits, as the chrono
numeric format items consume them; returns the value and the rest. -/
def takeDigits2 : List Char → Option (Nat × List Char)
  | [] => none
  | c :: rest =>
    match digitVal c with
    | none => none
    | some d1 =>
      match rest with
      | c2 :: rest2 =>
        match digitVal c2 with
        | none => some (d1, rest)
        | some d2 => some (10 * d1 + d2, rest2)
      | [] => some (d1, [])

/-- Days per month in the year 2000 (a leap year), the calendar check
chrono applies when the source parses the field together with the
appended "-2000" using the format "%m-%d-%Y". -/
def daysInMonth2000 : Nat → Nat
  | 1 => 31 | 2 => 29 | 3 => 31 | 4 => 30 | 5 => 31 | 6 => 30
  | 7 => 31 | 8 => 31 | 9 => 30 | 10 => 31 | 11 => 30 | 12 => 31
  | _ => 0

/-- The date parse performed per row by the source: NaiveDate parse of
field-2000 with format "%m-%d-%Y", for fields of the plain month-day
digit shape; yields (month, day) when the date exists in year 2000. -/
def parseMMDD (s : String) : Option (Nat × Nat) :=
  match takeDigits2 s.data with
  | some (m, List.cons '-' rest) =>
    match takeDigits2 rest with
    | some (d, []) =>
      if 1 ≤ m ∧ m ≤ 12 ∧ 1 ≤ d ∧ d ≤ daysInMonth2000 m then some (m, d) else none
    | _ => none
  | _ => none

/-- The record stream the csv crate yields to the for loop: the header
line is consumed, and each later line whose field count differs from the
header is delivered as an Err value (UnequalLengths) instead of a record. -/
def csvRecords : List (List String) → List (Except Unit (List String))
  | [] => []
  | header :: rest =>
    rest.map (fun r => if r.length = header.length then Except.ok r else Except.error ())

/-- The for loop of get_biblereading_for_date over the record stream: an
Err record is skipped (the empty Err match arm); an Ok record with a
field count other than 3, or an unparseable date field, aborts with
invalidFormat; a record matching the searched date returns its readings
(column 2 old testament, column 1 new testament); an exhausted stream is
dateDoesNotExist. -/
def lookupRows (search : Nat × Nat) : List (Except Unit (List String)) → Except ErrorCause BibleReading
  | [] => Except.error ErrorCause.dateDoesNotExist
  | Except.error _ :: rest => lookupRows search rest
  | Except.ok rec :: rest =>
    if rec.length ≠ 3 then Except.error ErrorCause.invalidFormat
    else
      match parseMMDD (rec.headD "") with
      | none => Except.error ErrorCause.invalidFormat
      | some date =>
        if date = search then
          Except.ok { date := date,
                      old_testament_reading := rec.getD 2 "",
                      new_testament_reading := rec.getD 1 "" }
        else lookupRows search rest

/-- get_biblereading_for_date on given CSV contents (the file-not-found
branch of the source precedes the reading and is orthogonal here): the
searched date arrives with its year already replaced by 2000, so only
(month, day) matters. -/
def get_biblereading_for_date (rows : List (List String)) (search : Nat × Nat) :
    Except ErrorCause BibleReading :=
  lookupRows search (csvRecords rows)

/-! ## Localized messages used by the set-timer handler (localize.rs) -/

def msg_timer_updated (lang : Language) (time : NaiveTime) : String :=
  match lang with
  | Language.English => "The daily timer has been updated to " ++ timeToString time ++ "."
  | Language.German => "Die tägliche Erinnerung wurde auf " ++ timeToString time ++ " gesetzt."

def msg_error_timer_update (lang : Language) : String :=
  match lang with
  | Language.English => "The format was not valid. Please use the function with a valid time (for example /settimer 08:00)."
  | Language.German => "Ungültiges Format. Bitte benutze die Funktion mit einer gültigen Zeitangabe, zum Beispiel /settimer 08:00."

/-! ## The set-timer command handler (main.rs bot_set_timer) -/

/-- The chrono NaiveTime parse with format "%H:%M" used by bot_set_timer:
one or two digits of hour, a colon, one or two digits of minute, nothing
trailing; hour below 24 and minute below 60; the second is zero. -/
def parseHM (s : String) : Option NaiveTime :=
  match takeDigits2 s.data with
  | none => none
  | some (h, rest) =>
    match rest with
    | List.cons ':' rest2 =>
      match takeDigits2 rest2 with
      | some (m, []) =>
        if h < 24 ∧ m < 60 then some { hour := h, minute := m, second := 0 } else none
      | _ => none
    | _ => none

/-- bot_set_timer: looks up the user state for the chat, parses the timer
string; on success stores the state with the new timer through
update_userstate and answers with the confirmation message, on a parse
failure answers with the corrective message and performs no store call.
The pair is (messages sent, collection after the call). -/
def bot_set_timer (timer_string : String) (chat_id : Int) (store : UserStateStore) :
    List String × UserStateStore :=
  let user_state := (find_userstate chat_id store).1
  match parseHM timer_string with
  | some time =>
    let updated := { user_state with timer := some time }
    ([msg_timer_updated updated.language time], (update_userstate updated store).2)
  | none => ([msg_error_timer_update user_state.language], store)

/-! ## The scheduler loop (main.rs run_timer_thread_loop)

Each iteration reads the clock; when no previous iteration is recorded or
the recorded (hour, minute) differs from the current one, it scans every
stored record and spawns one notification task per record whose timer
matches the current (hour, minute); the recorded time is then set to the
current time in every iteration. The loop is embedded as a fold over the
list of clock readings of the simulated iterations, collecting the chat
ids of the dispatched notification tasks in order. -/

/-- The guard of the once-per-minute block: last_run is none, or differs
from now in hour or minute. -/
def shouldScan : Option NaiveTime → NaiveTime → Bool
  | none, _ => true
  | some lr, now => decide (lr.hour ≠ now.hour) || decide (lr.minute ≠ now.minute)

/-- The per-record dispatch condition: a timer is set and its hour and
minute equal the current ones. -/
def timerMatches (now : NaiveTime) (u : UserState) : Bool :=
  match u.timer with
  | some t => decide (t.hour = now.hour) && decide (t.minute = now.minute)
  | none => false

/-- The chat ids dispatched by one scan of the store, in store order. -/
def scanDispatch (store : UserStateStore) (now : NaiveTime) : List Int :=
  (store.filter (timerMatches now)).map (fun u => u.chat_id)

/-- run_timer_thread_loop over the clock readings of the simulated
iterations: the list of dispatched chat ids, in dispatch order. -/
def run_timer_thread_loop (times : List NaiveTime) (last_run : Option NaiveTime)
    (store : UserStateStore) : List Int :=
  match times with
  | [] => []
  | now :: rest =>
    (if shouldScan last_run now then scanDispatch store now else [])
      ++ run_timer_thread_loop rest (some now) store

/-! ## Concurrent upserts (userstate.rs update_userstate, claim C3)

update_userstate acquires the write lock twice: once for the scan loop
(the lock guard is a temporary of the for expression and is dropped when
the loop ends) and, when no record matched, a second time for the push.
Between the two acquisitions other tasks may run. Each call is therefore
two atomic sections, embedded as the two phases below; an interleaving of
several calls is a schedule of task steps. -/

inductive UpsertPhase where
  | scan
  | push
  | done
deriving DecidableEq

/-- One in-flight update_userstate call: its argument, the atomic section
it will execute next, and its return value once finished. -/
structure UpsertTask where
  arg : UserState
  phase : UpsertPhase
  result : Option Bool
deriving DecidableEq

/-- Replace the first record with the chat id of the argument, if any
(the scan loop body under the first write lock). -/
def replaceFirst (s : UserState) : UserStateStore → Option UserStateStore
  | [] => none
  | u :: rest =>
    if u.chat_id = s.chat_id then some (s :: rest)
    else (replaceFirst s rest).map (fun r => u :: r)

/-- One atomic step of an in-flight call: the scan section replaces a
matching record and returns true, or ends with the push section pending;
the push section appends the argument and returns false. -/
def stepUpsert (store : UserStateStore) (t : UpsertTask) : UserStateStore × UpsertTask :=
  match t.phase with
  | UpsertPhase.scan =>
    match replaceFirst t.arg store with
    | some store2 => (store2, { t with phase := UpsertPhase.done, result := some true })
    | none => (store, { t with phase := UpsertPhase.push })
  | UpsertPhase.push =>
    (store ++ [t.arg], { t with phase := UpsertPhase.done, result := some false })
  | UpsertPhase.done => (store, t)

/-- Run a schedule of steps of two concurrent update_userstate calls:
each schedule entry names the task that executes its next atomic section. -/
def runSchedule : List (Fin 2) → UserStateStore → UpsertTask → UpsertTask →
    UserStateStore × UpsertTask × UpsertTask
  | [], store, t0, t1 => (store, t0, t1)
  | i :: rest, store, t0, t1 =>
    if i = 0 then
      let s := stepUpsert store t0
      runSchedule rest s.1 s.2 t1
    else
      let s := stepUpsert store t1
      runSchedule rest s.1 t0 s.2

/-- Sanity check of the concurrency model: a call whose two sections run
without interleaving behaves exactly like update_userstate. -/
theorem stepUpsert_sequential (s : UserState) (store : UserStateStore) :
    (runSchedule [0, 0] store { arg := s, phase := UpsertPhase.scan, result := none }
      { arg := s, phase := UpsertPhase.done, result := none }).1
      = (update_userstate s store).2 := by
  induction store with
  | nil => rfl
  | cons u rest ih =>
    by_cases hu : u.chat_id = s.chat_id
    · simp [runSchedule, stepUpsert, replaceFirst, update_userstate, hu]
    · simp only [runSchedule, stepUpsert, replaceFirst, update_userstate, if_neg hu] at ih ⊢
      cases hrf : replaceFirst s rest with
      | none => simp [hrf] at ih ⊢; simpa [runSchedule, stepUpsert, hrf] using ih
      | some r => simp [hrf] at ih ⊢; simpa [runSchedule, stepUpsert, hrf] using ih

/-! ## Further supporting lemmas -/

/-- When a record with the argument key is present, update_userstate
overwrites exactly the first such record in place. -/
theorem update_userstate_of_mem (s : UserState) (store : UserStateStore)
    (h : ∃ u ∈ store, u.chat_id = s.chat_id) :
    ∃ l1 u l2, store = l1 ++ u :: l2 ∧ u.chat_id = s.chat_id ∧
      (∀ v ∈ l1, v.chat_id ≠ s.chat_id) ∧
      update_userstate s store = (true, l1 ++ s :: l2) := by
  induction store with
  | nil => simp at h
  | cons u rest ih =>
    by_cases hu : u.chat_id = s.chat_id
    · exact ⟨[], u, rest, rfl, hu, by simp, by simp [update_userstate, hu]⟩
    · have hrest : ∃ v ∈ rest, v.chat_id = s.chat_id := by
        rcases h with ⟨v, hv, hkey⟩
        rcases List.mem_cons.mp hv with h2 | h2
        · exact absurd (h2 ▸ hkey) hu
        · exact ⟨v, h2, hkey⟩
      obtain ⟨l1, w, l2, hdecomp, hkey, hpre, heq⟩ := ih hrest
      refine ⟨u :: l1, w, l2, by simp [hdecomp], hkey, ?_, ?_⟩
      · intro v hv
        rcases List.mem_cons.mp hv with h2 | h2
        · exact h2 ▸ hu
        · exact hpre v h2
      · simp [update_userstate, if_neg hu, heq]

theorem countKey_singleton_self (s : UserState) : countKey s.chat_id [s] = 1 := by
  simp [countKey]

/-- Records of a store built by upserts whose arguments all avoid a chat
id themselves avoid that chat id. -/
theorem applyUpserts_no_key (chat_id : Int) (ops : List UserState) (store : UserStateStore)
    (hstore : ∀ u ∈ store, u.chat_id ≠ chat_id)
    (hops : ∀ op ∈ ops, op.chat_id ≠ chat_id) :
    ∀ u ∈ applyUpserts ops store, u.chat_id ≠ chat_id := by
  induction ops generalizing store with
  | nil => simpa [applyUpserts] using hstore
  | cons op ops ih =>
    have hop : op.chat_id ≠ chat_id := hops op (List.mem_cons_self op ops)
    have hops2 : ∀ o ∈ ops, o.chat_id ≠ chat_id := fun o ho => hops o (List.mem_cons_of_mem op ho)
    have hstep : ∀ u ∈ (update_userstate op store).2, u.chat_id ≠ chat_id := by
      intro u hu
      rcases mem_update_userstate op u store hu with h2 | h2
      · exact h2 ▸ hop
      · exact hstore u h2
    simpa [applyUpserts] using ih (update_userstate op store).2 hstep hops2

theorem findLoop_no_key (chat_id : Int) (store : UserStateStore)
    (h : ∀ u ∈ store, u.chat_id ≠ chat_id) :
    findLoop chat_id store = defaultUserState chat_id := by
  induction store with
  | nil => rfl
  | cons u rest ih =>
    have hu : u.chat_id ≠ chat_id := h u (List.mem_cons_self u rest)
    have hrest : ∀ v ∈ rest, v.chat_id ≠ chat_id := fun v hv => h v (List.mem_cons_of_mem u hv)
    simp [findLoop, hu, ih hrest]

theorem user_state_exists_no_key (chat_id : Int) (store : UserStateStore)
    (h : ∀ u ∈ store, u.chat_id ≠ chat_id) :
    user_state_exists chat_id store = false := by
  induction store with
  | nil => rfl
  | cons u rest ih =>
    have hu : u.chat_id ≠ chat_id := h u (List.mem_cons_self u rest)
    have hrest : ∀ v ∈ rest, v.chat_id ≠ chat_id := fun v hv => h v (List.mem_cons_of_mem u hv)
    simp [user_state_exists, hu, ih hrest]

/-- When all remaining clock readings stay inside the minute already
recorded in last_run, the loop dispatches nothing further. -/
theorem run_timer_thread_loop_same_minute (H M : Nat) (store : UserStateStore) :
    ∀ (times : List NaiveTime) (l : NaiveTime),
      (∀ t ∈ times, t.hour = H ∧ t.minute = M) → l.hour = H → l.minute = M →
      run_timer_thread_loop times (some l) store = [] := by
  intro times
  induction times with
  | nil => intro l _ _ _; rfl
  | cons now rest ih =>
    intro l hall hlh hlm
    have hnow := hall now (List.mem_cons_self now rest)
    have hrest : ∀ t ∈ rest, t.hour = H ∧ t.minute = M :=
      fun t ht => hall t (List.mem_cons_of_mem now ht)
    have hscan : shouldScan (some l) now = false := by
      simp [shouldScan, hlh, hlm, hnow.1, hnow.2]
    simp [run_timer_thread_loop, hscan, ih now hrest hnow.1 hnow.2]

theorem scanDispatch_cons (u : UserState) (rest : UserStateStore) (now : NaiveTime) :
    scanDispatch (u :: rest) now =
      if timerMatches now u then u.chat_id :: scanDispatch rest now
      else scanDispatch rest now := by
  by_cases hm : timerMatches now u <;> simp [scanDispatch, List.filter_cons, hm]

theorem count_scanDispatch_zero_of_no_key (chat_id : Int) (store : UserStateStore)
    (now : NaiveTime) (h : ∀ u ∈ store, u.chat_id ≠ chat_id) :
    List.count chat_id (scanDispatch store now) = 0 := by
  induction store with
  | nil => rfl
  | cons u rest ih =>
    have hu : u.chat_id ≠ chat_id := h u (List.mem_cons_self u rest)
    have hrest : ∀ v ∈ rest, v.chat_id ≠ chat_id := fun v hv => h v (List.mem_cons_of_mem u hv)
    rw [scanDispatch_cons]
    by_cases hm : timerMatches now u
    · simp [hm, List.count_cons, hu, ih hrest]
    · simp [hm, ih hrest]

/-- With unique chat ids, one scan dispatches to a stored record exactly
once when its timer matches and never otherwise. -/
theorem count_scanDispatch (u : UserState) (store : UserStateStore) (now : NaiveTime)
    (hinv : KeyNodup store) (hu : u ∈ store) :
    List.count u.chat_id (scanDispatch store now)
      = if timerMatches now u then 1 else 0 := by
  induction store with
  | nil => simp at hu
  | cons v rest ih =>
    have hpair := List.pairwise_cons.mp hinv
    rcases List.mem_cons.mp hu with h2 | h2
    · subst h2
      have hzero : List.count u.chat_id (scanDispatch rest now) = 0 :=
        count_scanDispatch_zero_of_no_key u.chat_id rest now
          (fun w hw => (hpair.1 w hw).symm)
      rw [scanDispatch_cons]
      by_cases hm : timerMatches now u
      · simp [hm, List.count_cons, hzero]
      · simp [hm, hzero]
    · have hne : v.chat_id ≠ u.chat_id := hpair.1 u h2
      have hrec := ih hpair.2 h2
      rw [scanDispatch_cons]
      by_cases hm : timerMatches now v
      · simp [hm, List.count_cons, hne, hrec]
      · simp [hm, hrec]

/-! ## The claims -/

/-- Claim C1: for every UserState s and every store, update_userstate
returns true and overwrites the first stored record with the same chat id
in place when one is present, and returns false and appends s when none
is present; a first upsert for a fresh chat id (returning false) followed
by a second upsert for the same chat id (returning true) leaves exactly
one record for that chat id. -/
theorem claim_C1_update_userstate (s : UserState) (store : UserStateStore) :
    ((∃ u ∈ store, u.chat_id = s.chat_id) →
      (update_userstate s store).1 = true ∧
      ∃ l1 u l2, store = l1 ++ u :: l2 ∧ u.chat_id = s.chat_id ∧
        (∀ v ∈ l1, v.chat_id ≠ s.chat_id) ∧
        (update_userstate s store).2 = l1 ++ s :: l2) ∧
    ((∀ u ∈ store, u.chat_id ≠ s.chat_id) →
      update_userstate s store = (false, store ++ [s])) ∧
    ((∀ u ∈ store, u.chat_id ≠ s.chat_id) →
      (update_userstate s store).1 = false ∧
      ∀ s2 : UserState, s2.chat_id = s.chat_id →
        (update_userstate s2 (update_userstate s store).2).1 = true ∧
        countKey s.chat_id (update_userstate s2 (update_userstate s store).2).2 = 1) := by
  refine ⟨?_, ?_, ?_⟩
  · intro h
    obtain ⟨l1, u, l2, hdecomp, hkey, hpre, heq⟩ := update_userstate_of_mem s store h
    exact ⟨by simp [heq], l1, u, l2, hdecomp, hkey, hpre, by simp [heq]⟩
  · exact update_userstate_of_not_mem s store
  · intro h
    have hfirst := update_userstate_of_not_mem s store h
    refine ⟨by simp [hfirst], ?_⟩
    intro s2 hs2
    have hmem : ∃ u ∈ (update_userstate s store).2, u.chat_id = s2.chat_id := by
      refine ⟨s, ?_, hs2.symm⟩
      rw [hfirst]
      simp
    constructor
    · exact (update_userstate_fst_eq_exists s2 (update_userstate s store).2).mpr hmem
    · have hcount := countKey_update_of_mem s2 (update_userstate s store).2 hmem
      rw [hs2] at hcount
      rw [hcount, hfirst]
      simp only [countKey_append, countKey_singleton_self]
      rw [countKey_eq_zero_of_not_mem s.chat_id store h]

/-- Witness for claim C1 at concrete stores. -/
theorem claim_C1_witness :
    (update_userstate { chat_id := 1, language := Language.German, timer := none }
      [{ chat_id := 1, language := Language.English, timer := none }]).1 = true ∧
    update_userstate { chat_id := 2, language := Language.English, timer := none } [] =
      (false, [{ chat_id := 2, language := Language.English, timer := none }]) ∧
    countKey 3 (update_userstate { chat_id := 3, language := Language.German, timer := none }
      (update_userstate { chat_id := 3, language := Language.English, timer := none } []).2).2 = 1 := by
  refine ⟨?_, ?_, ?_⟩
  · exact ((claim_C1_update_userstate _ _).1
      ⟨{ chat_id := 1, language := Language.English, timer := none },
        List.mem_singleton_self _, rfl⟩).1
  · exact (claim_C1_update_userstate _ _).2.1 (by simp)
  · exact (((claim_C1_update_userstate
      { chat_id := 3, language := Language.English, timer := none } []).2.2 (by simp)).2
      { chat_id := 3, language := Language.German, timer := none } rfl).2

/-- Claim C2 (amended): update_userstate preserves the per-chat-id
uniqueness invariant, find_userstate leaves the collection unchanged, a
failed load leaves it unchanged, and a successful load replaces it with
exactly the records of the file — so load preserves the invariant when
the loaded records have pairwise distinct chat ids, and only then. -/
theorem claim_C2_key_invariant :
    (∀ (s : UserState) (store : UserStateStore),
      KeyNodup store → KeyNodup (update_userstate s store).2) ∧
    (∀ (chat_id : Int) (store : UserStateStore), (find_userstate chat_id store).2 = store) ∧
    (∀ (file : Option Json) (store : UserStateStore) (e : LoadError),
      (load_states_from_file file store).1 = Except.error e →
      (load_states_from_file file store).2 = store) ∧
    (∀ (doc : Json) (records : List UserState) (store : UserStateStore),
      userStatesFromJson doc = some records →
      (load_states_from_file (some doc) store).2 = records ∧
      (KeyNodup records → KeyNodup (load_states_from_file (some doc) store).2)) := by
  refine ⟨keyNodup_update_userstate, fun _ _ => rfl, ?_, ?_⟩
  · intro file store e h
    cases file with
    | none => rfl
    | some doc =>
      cases hp : userStatesFromJson doc with
      | none => simp [load_states_from_file, hp]
      | some records => simp [load_states_from_file, hp] at h
  · intro doc records store hp
    constructor
    · simp [load_states_from_file, hp]
    · intro hk
      simpa [load_states_from_file, hp] using hk

/-- Counterexample for claim C2 as stated: loading a file whose document
holds two records for chat id 7 succeeds and leaves the store with two
records for that chat id, violating the at-most-one invariant. -/
theorem claim_C2_counterexample :
    (load_states_from_file (some (Json.arr
      [userStateToJson { chat_id := 7, language := Language.English, timer := none },
       userStateToJson { chat_id := 7, language := Language.English, timer := none }])) []).1
      = Except.ok () ∧
    countKey 7 (load_states_from_file (some (Json.arr
      [userStateToJson { chat_id := 7, language := Language.English, timer := none },
       userStateToJson { chat_id := 7, language := Language.English, timer := none }])) []).2 = 2 ∧
    ¬ KeyNodup (load_states_from_file (some (Json.arr
      [userStateToJson { chat_id := 7, language := Language.English, timer := none },
       userStateToJson { chat_id := 7, language := Language.English, timer := none }])) []).2 := by
  refine ⟨rfl, rfl, ?_⟩
  intro hk
  have h2 : List.Pairwise (fun a b : UserState => a.chat_id ≠ b.chat_id)
      [{ chat_id := 7, language := Language.English, timer := none },
       { chat_id := 7, language := Language.English, timer := none }] := hk
  exact (List.pairwise_cons.mp h2).1 _ (List.mem_singleton_self _) rfl

/-- Witness for claim C2 at concrete inputs. -/
theorem claim_C2_witness :
    KeyNodup (update_userstate { chat_id := 1, language := Language.German, timer := none }
      [{ chat_id := 1, language := Language.English, timer := none },
       { chat_id := 2, language := Language.English, timer := none }]).2 ∧
    (load_states_from_file none
      [{ chat_id := 5, language := Language.English, timer := none }]).2
      = [{ chat_id := 5, language := Language.English, timer := none }] := by
  constructor
  · refine claim_C2_key_invariant.1 _ _ ?_
    refine List.pairwise_cons.mpr ⟨?_, List.pairwise_singleton _ _⟩
    intro v hv
    rw [List.mem_singleton.mp hv]
    decide
  · exact claim_C2_key_invariant.2.2.1 none _ LoadError.ioError rfl

/-- Claim C3: code behaviour at the failing interleaving. Two concurrent
update_userstate calls for the absent chat id 7 on the empty store, with
the schedule scan, scan, push, push (possible because the write lock of
the scan loop is released before the push acquires it again): both calls
append, both return false, and the store ends with two records for chat
id 7 — the exclusive section does not extend over the whole call. -/
theorem claim_C3_both_append :
    (runSchedule [0, 1, 0, 1] []
        { arg := { chat_id := 7, language := Language.English, timer := none },
          phase := UpsertPhase.scan, result := none }
        { arg := { chat_id := 7, language := Language.English, timer := none },
          phase := UpsertPhase.scan, result := none }).2.1.result = some false ∧
    (runSchedule [0, 1, 0, 1] []
        { arg := { chat_id := 7, language := Language.English, timer := none },
          phase := UpsertPhase.scan, result := none }
        { arg := { chat_id := 7, language := Language.English, timer := none },
          phase := UpsertPhase.scan, result := none }).2.2.result = some false ∧
    countKey 7 (runSchedule [0, 1, 0, 1] []
        { arg := { chat_id := 7, language := Language.English, timer := none },
          phase := UpsertPhase.scan, result := none }
        { arg := { chat_id := 7, language := Language.English, timer := none },
          phase := UpsertPhase.scan, result := none }).1 = 2 :=
  ⟨rfl, rfl, rfl⟩

/-- Claim C4: a load that fails — unreadable file or a document the
deserializer rejects — returns the error and leaves the collection
exactly as it was; a successful load replaces the collection wholesale
with the records of the file, with no merging of prior contents. -/
theorem claim_C4_load_error_handling :
    (∀ store : UserStateStore,
      load_states_from_file none store = (Except.error LoadError.ioError, store)) ∧
    (∀ (doc : Json) (store : UserStateStore), userStatesFromJson doc = none →
      load_states_from_file (some doc) store = (Except.error LoadError.parseError, store)) ∧
    (∀ (doc : Json) (records : List UserState) (store : UserStateStore),
      userStatesFromJson doc = some records →
      load_states_from_file (some doc) store = (Except.ok (), records)) := by
  refine ⟨fun store => rfl, ?_, ?_⟩
  · intro doc store h
    simp [load_states_from_file, h]
  · intro doc records store h
    simp [load_states_from_file, h]

/-- Witness for claim C4 at concrete inputs. -/
theorem claim_C4_witness :
    load_states_from_file none [{ chat_id := 5, language := Language.German, timer := none }]
      = (Except.error LoadError.ioError,
         [{ chat_id := 5, language := Language.German, timer := none }]) ∧
    load_states_from_file (some (Json.num 0))
      [{ chat_id := 5, language := Language.German, timer := none }]
      = (Except.error LoadError.parseError,
         [{ chat_id := 5, language := Language.German, timer := none }]) ∧
    load_states_from_file (some (Json.arr []))
      [{ chat_id := 5, language := Language.German, timer := none }]
      = (Except.ok (), []) := by
  refine ⟨claim_C4_load_error_handling.1 _, ?_, ?_⟩
  · exact claim_C4_load_error_handling.2.1 _ _ rfl
  · exact claim_C4_load_error_handling.2.2 _ [] _ rfl

/-- Claim C5: writing the store to a file and loading that file into a
fresh empty store yields the identical collection — same chat ids,
languages and optional timers, in the same order. The hypothesis is the
chrono invariant on stored times. -/
theorem claim_C5_save_load_roundtrip (store : UserStateStore)
    (h : ∀ u ∈ store, TimerWF u.timer) :
    load_states_from_file (some (write_states_to_file store)) [] = (Except.ok (), store) := by
  simp [load_states_from_file, write_states_to_file,
    userStatesFromJson_userStatesToJson store h]

/-- Witness for claim C5 at a concrete store holding a timer, a language
choice and a timerless record. -/
theorem claim_C5_witness :
    load_states_from_file (some (write_states_to_file
      [{ chat_id := 10, language := Language.German,
         timer := some { hour := 8, minute := 0, second := 0 } },
       { chat_id := 11, language := Language.English, timer := none }])) []
      = (Except.ok (),
         [{ chat_id := 10, language := Language.German,
            timer := some { hour := 8, minute := 0, second := 0 } },
          { chat_id := 11, language := Language.English, timer := none }]) := by
  refine claim_C5_save_load_roundtrip _ ?_
  intro u hu
  rcases List.mem_cons.mp hu with h1 | h1
  · rw [h1]
    exact ⟨by decide, by decide, by decide⟩
  · rw [List.mem_singleton.mp h1]
    exact trivial

/-- Claim C6: for a chat id for which no upsert was ever performed on a
store built from the empty collection, find_userstate returns the default
record (English, no timer, that chat id), leaves the collection
unchanged, and user_state_exists returns false. -/
theorem claim_C6_find_default (ops : List UserState) (chat_id : Int)
    (h : ∀ op ∈ ops, op.chat_id ≠ chat_id) :
    (find_userstate chat_id (applyUpserts ops [])).1 = defaultUserState chat_id ∧
    (find_userstate chat_id (applyUpserts ops [])).2 = applyUpserts ops [] ∧
    user_state_exists chat_id (applyUpserts ops []) = false := by
  have hno := applyUpserts_no_key chat_id ops [] (by simp) h
  exact ⟨findLoop_no_key chat_id _ hno, rfl, user_state_exists_no_key chat_id _ hno⟩

/-- Witness for claim C6: one upsert for chat 1, lookup of chat 2. -/
theorem claim_C6_witness :
    (find_userstate 2 (applyUpserts
      [{ chat_id := 1, language := Language.German, timer := none }] [])).1
      = defaultUserState 2 ∧
    (find_userstate 2 (applyUpserts
      [{ chat_id := 1, language := Language.German, timer := none }] [])).2
      = applyUpserts [{ chat_id := 1, language := Language.German, timer := none }] [] ∧
    user_state_exists 2 (applyUpserts
      [{ chat_id := 1, language := Language.German, timer := none }] []) = false := by
  refine claim_C6_find_default _ 2 ?_
  intro op hop
  rw [List.mem_singleton.mp hop]
  decide

/-- Claim C7: code behaviour at the failing input. The CSV has a header
of three columns and one data row of two columns; because the csv reader
is not flexible, that row arrives as an Err record and the empty Err
match arm skips it, so the lookup for an absent date returns the
date-not-found error — not the invalid-format error the claim requires
for a reached row with a column count other than 3. -/
theorem claim_C7_short_row_skipped :
    (["01-01", "onlytwo"] : List String).length ≠ 3 ∧
    get_biblereading_for_date [["date", "nt", "ot"], ["01-01", "onlytwo"]] (1, 2)
      = Except.error ErrorCause.dateDoesNotExist ∧
    get_biblereading_for_date [["date", "nt", "ot"], ["01-01", "onlytwo"]] (1, 2)
      ≠ Except.error ErrorCause.invalidFormat := by
  refine ⟨by decide, rfl, ?_⟩
  intro h
  exact ErrorCause.noConfusion (Except.error.inj h)

/-- Claim C8: over any run whose clock readings all fall in one (hour,
minute) and whose recorded last run is unset or in another minute, a
record whose timer matches that (hour, minute) is dispatched exactly
once, a record without a timer or with a non-matching timer never. -/
theorem claim_C8_scheduler_dispatch (store : UserStateStore) (H M : Nat)
    (times : List NaiveTime) (last_run0 : Option NaiveTime)
    (hinv : KeyNodup store)
    (hall : ∀ t ∈ times, t.hour = H ∧ t.minute = M)
    (hne : times ≠ [])
    (hlr : last_run0 = none ∨ ∃ l, last_run0 = some l ∧ (l.hour ≠ H ∨ l.minute ≠ M)) :
    (∀ u ∈ store, ∀ tm : NaiveTime, u.timer = some tm → tm.hour = H → tm.minute = M →
      List.count u.chat_id (run_timer_thread_loop times last_run0 store) = 1) ∧
    (∀ u ∈ store,
      (u.timer = none ∨ ∀ tm : NaiveTime, u.timer = some tm → tm.hour ≠ H ∨ tm.minute ≠ M) →
      List.count u.chat_id (run_timer_thread_loop times last_run0 store) = 0) := by
  cases times with
  | nil => exact absurd rfl hne
  | cons now rest =>
    have hnow := hall now (List.mem_cons_self now rest)
    have hrest : ∀ t ∈ rest, t.hour = H ∧ t.minute = M :=
      fun t ht => hall t (List.mem_cons_of_mem now ht)
    have hscan : shouldScan last_run0 now = true := by
      rcases hlr with rfl | ⟨l, rfl, hdiff⟩
      · rfl
      · simp only [shouldScan, Bool.or_eq_true, decide_eq_true_eq]
        rw [hnow.1, hnow.2]
        exact hdiff
    have htail : run_timer_thread_loop rest (some now) store = [] :=
      run_timer_thread_loop_same_minute H M store rest now hrest hnow.1 hnow.2
    have hrun : run_timer_thread_loop (now :: rest) last_run0 store = scanDispatch store now := by
      simp [run_timer_thread_loop, hscan, htail]
    rw [hrun]
    constructor
    · intro u hu tm htm hh hm
      have hmatch : timerMatches now u = true := by
        simp only [timerMatches, htm, Bool.and_eq_true, decide_eq_true_eq]
        exact ⟨by rw [hh, hnow.1], by rw [hm, hnow.2]⟩
      rw [count_scanDispatch u store now hinv hu, if_pos hmatch]
    · intro u hu hcase
      have hmatch : timerMatches now u = false := by
        cases htm : u.timer with
        | none => simp [timerMatches, htm]
        | some tm =>
          rcases hcase with h1 | h1
          · rw [htm] at h1
            exact Option.noConfusion h1
          · rcases h1 tm htm with h2 | h2
            · simp [timerMatches, htm, hnow.1, h2]
            · simp [timerMatches, htm, hnow.2, h2]
      rw [count_scanDispatch u store now hinv hu, if_neg (by simp [hmatch])]

/-- Witness for claim C8: three iterations inside the minute 08:00, a
record with a matching timer, one with no timer, one with timer 09:30. -/
theorem claim_C8_witness :
    List.count 1 (run_timer_thread_loop
      [{ hour := 8, minute := 0, second := 0 }, { hour := 8, minute := 0, second := 5 },
       { hour := 8, minute := 0, second := 10 }] none
      [{ chat_id := 1, language := Language.English,
         timer := some { hour := 8, minute := 0, second := 0 } },
       { chat_id := 2, language := Language.German, timer := none },
       { chat_id := 3, language := Language.English,
         timer := some { hour := 9, minute := 30, second := 0 } }]) = 1 ∧
    List.count 2 (run_timer_thread_loop
      [{ hour := 8, minute := 0, second := 0 }, { hour := 8, minute := 0, second := 5 },
       { hour := 8, minute := 0, second := 10 }] none
      [{ chat_id := 1, language := Language.English,
         timer := some { hour := 8, minute := 0, second := 0 } },
       { chat_id := 2, language := Language.German, timer := none },
       { chat_id := 3, language := Language.English,
         timer := some { hour := 9, minute := 30, second := 0 } }]) = 0 ∧
    List.count 3 (run_timer_thread_loop
      [{ hour := 8, minute := 0, second := 0 }, { hour := 8, minute := 0, second := 5 },
       { hour := 8, minute := 0, second := 10 }] none
      [{ chat_id := 1, language := Language.English,
         timer := some { hour := 8, minute := 0, second := 0 } },
       { chat_id := 2, language := Language.German, timer := none },
       { chat_id := 3, language := Language.English,
         timer := some { hour := 9, minute := 30, second := 0 } }]) = 0 := by
  have h := claim_C8_scheduler_dispatch
    [{ chat_id := 1, language := Language.English,
       timer := some { hour := 8, minute := 0, second := 0 } },
     { chat_id := 2, language := Language.German, timer := none },
     { chat_id := 3, language := Language.English,
       timer := some { hour := 9, minute := 30, second := 0 } }] 8 0
    [{ hour := 8, minute := 0, second := 0 }, { hour := 8, minute := 0, second := 5 },
     { hour := 8, minute := 0, second := 10 }] none
    (by refine List.pairwise_cons.mpr ⟨?_, List.pairwise_cons.mpr
          ⟨?_, List.pairwise_singleton _ _⟩⟩ <;> intro v hv <;>
        fin_cases hv <;> decide)
    (by intro t ht; fin_cases ht <;> exact ⟨rfl, rfl⟩)
    (List.cons_ne_nil _ _)
    (Or.inl rfl)
  have hm1 : ({ chat_id := 1, language := Language.English, timer := some { hour := 8, minute := 0, second := 0 } } : UserState) ∈
      [{ chat_id := 1, language := Language.English, timer := some { hour := 8, minute := 0, second := 0 } },
       { chat_id := 2, language := Language.German, timer := none },
       { chat_id := 3, language := Language.English, timer := some { hour := 9, minute := 30, second := 0 } }] :=
    List.mem_cons_self _ _
  have hm2 : ({ chat_id := 2, language := Language.German, timer := none } : UserState) ∈
      [{ chat_id := 1, language := Language.English, timer := some { hour := 8, minute := 0, second := 0 } },
       { chat_id := 2, language := Language.German, timer := none },
       { chat_id := 3, language := Language.English, timer := some { hour := 9, minute := 30, second := 0 } }] :=
    List.mem_cons_of_mem _ (List.mem_cons_self _ _)
  have hm3 : ({ chat_id := 3, language := Language.English, timer := some { hour := 9, minute := 30, second := 0 } } : UserState) ∈
      [{ chat_id := 1, language := Language.English, timer := some { hour := 8, minute := 0, second := 0 } },
       { chat_id := 2, language := Language.German, timer := none },
       { chat_id := 3, language := Language.English, timer := some { hour := 9, minute := 30, second := 0 } }] :=
    List.mem_cons_of_mem _ (List.mem_cons_of_mem _ (List.mem_singleton_self _))
  refine ⟨?_, ?_, ?_⟩
  · exact h.1 _ hm1 { hour := 8, minute := 0, second := 0 } rfl rfl rfl
  · exact h.2 _ hm2 (Or.inl rfl)
  · refine h.2 _ hm3 (Or.inr ?_)
    intro tm htm
    injection htm with he
    rw [← he]
    left
    decide

/-- Claim C9: a timer string the HH:MM parser rejects makes bot_set_timer
answer with the corrective message in the language of the stored record
and leave the collection untouched — no update_userstate call happens. -/
theorem claim_C9_bad_timer_no_mutation (timer_string : String) (chat_id : Int)
    (store : UserStateStore) (h : parseHM timer_string = none) :
    bot_set_timer timer_string chat_id store
      = ([msg_error_timer_update (find_userstate chat_id store).1.language], store) := by
  simp [bot_set_timer, h]

/-- Witness for claim C9: the unparseable string abc against a store with
a previously set timer. -/
theorem claim_C9_witness :
    bot_set_timer "abc" 5
      [{ chat_id := 5, language := Language.German,
         timer := some { hour := 7, minute := 30, second := 0 } }]
      = ([msg_error_timer_update Language.German],
         [{ chat_id := 5, language := Language.German,
            timer := some { hour := 7, minute := 30, second := 0 } }]) :=
  claim_C9_bad_timer_no_mutation "abc" 5 _ rfl

/-- Claim C10 (amended): the first CSV line is consumed as the header and
never matched as a schedule entry; when the header date appears on no
later line and every later row reached is well formed (three columns, a
parseable date), the lookup for that date returns the date-not-found
error instead of the first line's readings. -/
theorem claim_C10_header_never_matched (header : List String) (rest : List (List String))
    (search : Nat × Nat)
    (hlen : header.length = 3)
    (_hdate : parseMMDD (header.headD "") = some search)
    (hrest : ∀ r ∈ rest, r.length = 3 ∧ ∃ d, parseMMDD (r.headD "") = some d ∧ d ≠ search) :
    get_biblereading_for_date (header :: rest) search
      = Except.error ErrorCause.dateDoesNotExist := by
  induction rest with
  | nil => simp [get_biblereading_for_date, csvRecords, lookupRows]
  | cons r rs ih =>
    obtain ⟨hrlen, d, hd, hdne⟩ := hrest r (List.mem_cons_self r rs)
    have hrs : ∀ x ∈ rs, x.length = 3 ∧ ∃ d, parseMMDD (x.headD "") = some d ∧ d ≠ search :=
      fun x hx => hrest x (List.mem_cons_of_mem r hx)
    have hcons : csvRecords (header :: r :: rs) = Except.ok r :: csvRecords (header :: rs) := by
      simp [csvRecords, hrlen, hlen]
    have hstep : lookupRows search (Except.ok r :: csvRecords (header :: rs))
        = lookupRows search (csvRecords (header :: rs)) := by
      rw [List.headD_eq_head?] at hd
      simp [lookupRows, hrlen, hd, hdne]
    have hgoal : get_biblereading_for_date (header :: r :: rs) search
        = lookupRows search (csvRecords (header :: rs)) := by
      rw [get_biblereading_for_date, hcons, hstep]
    rw [hgoal]
    exact ih hrs

/-- Counterexample for claim C10 as stated: the header date 01-01 appears
on no later line, but the later line is malformed, so the lookup returns
the invalid-format error, not the date-not-found error the claim
promises for every CSV contents. -/
theorem claim_C10_counterexample :
    parseMMDD "01-01" = some (1, 1) ∧
    parseMMDD "bad" = none ∧
    get_biblereading_for_date [["01-01", "NT1", "OT1"], ["bad", "x", "y"]] (1, 1)
      = Except.error ErrorCause.invalidFormat ∧
    get_biblereading_for_date [["01-01", "NT1", "OT1"], ["bad", "x", "y"]] (1, 1)
      ≠ Except.error ErrorCause.dateDoesNotExist := by
  refine ⟨rfl, rfl, rfl, ?_⟩
  intro h
  exact ErrorCause.noConfusion (Except.error.inj h)

/-- Witness for claim C10 at a concrete schedule whose header date 09-01
appears on no later line. -/
theorem claim_C10_witness :
    get_biblereading_for_date
      [["09-01", "1Kor12", "Psalm 135,136"], ["09-02", "a", "b"]] (9, 1)
      = Except.error ErrorCause.dateDoesNotExist := by
  refine claim_C10_header_never_matched _ _ _ rfl rfl ?_
  intro r hr
  rw [List.mem_singleton.mp hr]
  exact ⟨rfl, (9, 2), rfl, by decide⟩

end DailyBible
